import Mathlib

/-!
# Verification of the Hex_war simulation core (src/src/lib.rs)

Shallow embedding of the hex-territory simulation: the hex grid
(`Grid::new`, `Grid::center_to_index`, `Grid::flip_disc`), disc physics
(`Ball::maintain_speed`, `App::resolve_collisions`), and the per-frame
update (`App::tick`, `App::reset_grid`).  Rendering, DOM scoreboard and
animation-frame plumbing are I/O collaborators and are not modelled.

All `f64` arithmetic is modelled over `ℚ`.  The only transcendental
operation the source uses is `f64::sqrt`; every definition that needs it
takes an explicit square-root oracle `sq : ℚ → ℚ` as a parameter, and
theorems that depend on actual square-root behaviour state the needed
facts about `sq` at the concrete values where they are used.  `ratSqrt`
below is a concrete executable oracle, exact on perfect squares, used to
instantiate counterexamples and witnesses.  The degenerate exact-overlap
branch of `resolve_collisions` calls `Math.random`; that randomness is
modelled by a `poke` oracle supplying the random direction.
-/

set_option autoImplicit false
set_option maxRecDepth 40000

attribute [local semireducible] Rat.mul Rat.add Rat.sub Rat.inv

namespace HexWar

/-- `enum Team { Black, White }` -/
inductive Team where
  | Black : Team
  | White : Team
deriving DecidableEq, Repr

/-- `enum HexColor { Black, White }` -/
inductive HexColor where
  | Black : HexColor
  | White : HexColor
deriving DecidableEq, Repr

/-- `struct Ball` : position, velocity, team, radius, base speed, last bounce timestamp. -/
structure Ball where
  x : ℚ
  y : ℚ
  vx : ℚ
  vy : ℚ
  team : Team
  radius : ℚ
  base_speed : ℚ
  last_bounce_ts : ℚ
deriving DecidableEq, Repr

/-- `struct Cell` : grid coordinates, center, color. -/
structure Cell where
  col : ℕ
  row : ℕ
  cx : ℚ
  cy : ℚ
  color : HexColor
deriving DecidableEq, Repr

/-- `struct Grid` : cells (column-major, `col * rows + row`), dimensions,
circumradius `r`, vertical step `hex_h`. -/
structure Grid where
  cells : List Cell
  cols : ℕ
  rows : ℕ
  r : ℚ
  hex_h : ℚ
deriving DecidableEq, Repr

/-- `f64::clamp(lo, hi)` : `if v < lo { lo } else if v > hi { hi } else { v }`. -/
def ratClamp (v lo hi : ℚ) : ℚ :=
  if v < lo then lo else if v > hi then hi else v

/-- `f64::min` on finite values. -/
def ratMin (a b : ℚ) : ℚ := if a ≤ b then a else b

/-- `f64::abs` on finite values. -/
def ratAbs (v : ℚ) : ℚ := if v < 0 then -v else v

/-- Floor of a rational as an integer, via flooring integer division. -/
def ratFloor (q : ℚ) : ℤ := Int.fdiv q.num (q.den : ℤ)

/-- `f64::round` : round to nearest integer, ties away from zero. -/
def roundHalfAway (q : ℚ) : ℤ :=
  if 0 ≤ q then ratFloor (q + 1/2) else -(ratFloor (-q + 1/2))

/-- Integer square root by fuelled binary search (structural recursion, so the
kernel can evaluate it; `Nat.sqrt` is defined by well-founded recursion and
does not reduce).  Invariant: `lo * lo ≤ n < hi * hi`. -/
def natSqrtGo (n : ℕ) : ℕ → ℕ → ℕ → ℕ
  | 0, lo, _ => lo
  | fuel + 1, lo, hi =>
    if hi ≤ lo + 1 then lo
    else
      let mid := (lo + hi) / 2
      if mid * mid ≤ n then natSqrtGo n fuel mid hi else natSqrtGo n fuel lo mid

/-- Floor integer square root. -/
def natSqrt (n : ℕ) : ℕ := natSqrtGo n (n + 1) 0 (n + 1)

/-- Concrete square-root oracle: `sqrt (n/d) = sqrt (n*d) / d`.  Exact whenever
`q.num * q.den` is a perfect square (in particular on squares of naturals and on
`q = 0`); an under-approximation elsewhere; `0` on negatives. -/
def ratSqrt (q : ℚ) : ℚ := (natSqrt (q.num.toNat * q.den) : ℚ) / (q.den : ℚ)

/-- The hex color a team paints:
`match team { Team::Black => HexColor::Black, Team::White => HexColor::White }`. -/
def teamColor : Team → HexColor
  | Team.Black => HexColor.Black
  | Team.White => HexColor.White

/-- `TEAM_BOOST: f64 = 1.12` -/
def TEAM_BOOST : ℚ := 112/100

/-- `MAX_BASE_SPEED: f64 = 520.0` -/
def MAX_BASE_SPEED : ℚ := 520

/-- `Ball::maintain_speed` : rescale velocity to `base_speed` magnitude,
guarded against (near-)zero magnitude.  `sq` models `f64::sqrt`. -/
def maintain_speed (sq : ℚ → ℚ) (b : Ball) : Ball :=
  let mag := sq (b.vx * b.vx + b.vy * b.vy)
  if mag > 1/1000000 then
    let scale := b.base_speed / mag
    { b with vx := b.vx * scale, vy := b.vy * scale }
  else b

/-- Number of iterations of a loop `while pos + off <= limit { pos += step }`
whose tested quantity starts at `start = pos₀ + off` and increases by `step`
each iteration: the count of `n : ℕ` with `start + n * step ≤ limit`, assuming
`step > 0` (for `step ≤ 0` the source loop would not terminate). -/
def loopCount (start step limit : ℚ) : ℕ :=
  if start ≤ limit then (ratFloor ((limit - start) / step)).toNat + 1 else 0

/-- `Grid::new` : flat-top hex layout.  Column count = iterations of
`x = r; while x + r <= css_w - 1 { cols += 1; x += 1.5 r }` (minimum 1); row
count = min of the even-column and odd-column row counts (minimum 1); cells are
pushed column-major with centers `cx = r + col·1.5r`,
`cy = hex_h/2 + (col odd ? hex_h/2 : 0) + row·hex_h`, colored White left of the
board midline and Black right of it.  `hex_h = sqrt 3 · r`. -/
def Grid.new (sq : ℚ → ℚ) (css_w css_h r : ℚ) : Grid :=
  let hex_h := sq 3 * r
  let step_x := 3/2 * r
  let cols0 := loopCount (r + r) step_x (css_w - 1)
  let cols := if cols0 = 0 then 1 else cols0
  let rows_even := loopCount (hex_h / 2 + hex_h / 2) hex_h (css_h - 1)
  let rows_odd := loopCount (hex_h + hex_h / 2) hex_h (css_h - 1)
  let rows := max (min rows_even rows_odd) 1
  let mid_x := css_w * (1/2)
  let cells := (List.range cols).flatMap (fun (col : ℕ) =>
    let cx := r + (col : ℚ) * step_x
    let offset_y : ℚ := if col % 2 = 0 then 0 else hex_h / 2
    (List.range rows).map (fun (row : ℕ) =>
      let cy := hex_h / 2 + offset_y + (row : ℚ) * hex_h
      { col := col, row := row, cx := cx, cy := cy,
        color := if cx < mid_x then HexColor.White else HexColor.Black }))
  { cells := cells, cols := cols, rows := rows, r := r, hex_h := hex_h }

/-- `Grid::center_to_index` : invert the layout by rounding to the nearest
column, then (with that column's vertical offset) the nearest row; `none` if
either index falls outside the grid bounds. -/
def center_to_index (g : Grid) (x y : ℚ) : Option ℕ :=
  let step_x := 3/2 * g.r
  let col := roundHalfAway ((x - g.r) / step_x)
  if col < 0 ∨ (g.cols : ℤ) ≤ col then none
  else
    let col_us := col.toNat
    let offset : ℚ := if col_us % 2 = 0 then 0 else g.hex_h / 2
    let row := roundHalfAway ((y - g.hex_h / 2 - offset) / g.hex_h)
    if row < 0 ∨ (g.rows : ℤ) ≤ row then none
    else some (col_us * g.rows + row.toNat)

/-- Accumulator of the `flip_disc` cell loop: awarded points, bounce-normal
accumulator, number of contributing hits. -/
structure FlipAcc where
  white_pts : ℕ
  black_pts : ℕ
  nx : ℚ
  ny : ℚ
  hits : ℕ
deriving DecidableEq, Repr

/-- One iteration of the `flip_disc` loop body on a single cell. -/
def flipStep (sq : ℚ → ℚ) (x y r2 : ℚ) (target : HexColor)
    (acc : FlipAcc) (cell : Cell) : FlipAcc × Cell :=
  let dx := cell.cx - x
  let dy := cell.cy - y
  if dx * dx + dy * dy > r2 then (acc, cell)
  else if cell.color = target then (acc, cell)
  else
    let old := cell.color
    let cell1 := { cell with color := target }
    let acc1 :=
      match old, target with
      | HexColor.Black, HexColor.White => { acc with white_pts := acc.white_pts + 1 }
      | HexColor.White, HexColor.Black => { acc with black_pts := acc.black_pts + 1 }
      | _, _ => acc
    let vx := x - cell.cx
    let vy := y - cell.cy
    let len := sq (vx * vx + vy * vy)
    if len > 1/1000000 then
      ({ acc1 with nx := acc1.nx + vx / len, ny := acc1.ny + vy / len,
                   hits := acc1.hits + 1 }, cell1)
    else (acc1, cell1)

/-- The `flip_disc` loop over the cell list. -/
def flipGo (sq : ℚ → ℚ) (x y r2 : ℚ) (target : HexColor) :
    FlipAcc → List Cell → FlipAcc × List Cell
  | acc, [] => (acc, [])
  | acc, c :: cs =>
    let s := flipStep sq x y r2 target acc c
    let rest := flipGo sq x y r2 target s.1 cs
    (rest.1, s.2 :: rest.2)

/-- Result of `Grid::flip_disc`: the returned
`(white points, black points, bounce normal)` plus the mutated grid. -/
structure FlipResult where
  white_pts : ℕ
  black_pts : ℕ
  normal : Option (ℚ × ℚ)
  grid : Grid
deriving DecidableEq, Repr

/-- `Grid::flip_disc` : claim every hex whose center is within `radius` of
`(x, y)` (squared-distance test) for `team`, awarding one point per recolored
cell; accumulate unit vectors from each recolored cell toward `(x, y)` and
renormalize them into the bounce normal (or `none`). -/
def flip_disc (sq : ℚ → ℚ) (g : Grid) (x y radius : ℚ) (team : Team) : FlipResult :=
  let target := teamColor team
  let r2 := radius * radius
  let res := flipGo sq x y r2 target ⟨0, 0, 0, 0, 0⟩ g.cells
  let acc := res.1
  let normal :=
    if acc.hits > 0 then
      let len := sq (acc.nx * acc.nx + acc.ny * acc.ny)
      if len > 1/1000000 then some (acc.nx / len, acc.ny / len) else none
    else none
  { white_pts := acc.white_pts, black_pts := acc.black_pts, normal := normal,
    grid := { g with cells := res.2 } }

/-! Specification-side predicates used to state theorems about `flip_disc`.
They are read off the same loop body: a cell is recolored exactly when its
center is within the radius (squared-distance test, inclusive) and its color
differs from the target. -/

/-- Squared distance from `(x, y)` to a cell center, as the loop computes it. -/
def cellDist2 (x y : ℚ) (c : Cell) : ℚ :=
  (c.cx - x) * (c.cx - x) + (c.cy - y) * (c.cy - y)

/-- Squared length of the vector from the cell center toward `(x, y)`, as the
normal accumulation computes it. -/
def cellNrm2 (x y : ℚ) (c : Cell) : ℚ :=
  (x - c.cx) * (x - c.cx) + (y - c.cy) * (y - c.cy)

/-- A cell is recolored by `flip_disc x y` iff it is within the radius and its
color differs from the target. -/
def flipQual (x y r2 : ℚ) (target : HexColor) (c : Cell) : Bool :=
  decide (cellDist2 x y c ≤ r2) && decide (c.color ≠ target)

/-- A cell contributes to the bounce normal iff it is recolored and its center
is farther than `1e-6` from `(x, y)` (in the oracle metric). -/
def hitQual (sq : ℚ → ℚ) (x y r2 : ℚ) (target : HexColor) (c : Cell) : Bool :=
  flipQual x y r2 target c && decide (sq (cellNrm2 x y c) > 1/1000000)

/-- The per-cell effect of `flip_disc`. -/
def recolorCell (x y r2 : ℚ) (target : HexColor) (c : Cell) : Cell :=
  if flipQual x y r2 target c then { c with color := target } else c

/-- Phase 1 of `App::tick` for one disc: integrate the position and clamp
against the four walls, forcing the velocity component's sign outward. -/
def integrate_walls (w h dt mul : ℚ) (b : Ball) : Ball :=
  let x1 := b.x + b.vx * dt * mul
  let y1 := b.y + b.vy * dt * mul
  let xv := if x1 - b.radius ≤ 0 then (b.radius, ratAbs b.vx)
            else if x1 + b.radius ≥ w then (w - b.radius, -(ratAbs b.vx))
            else (x1, b.vx)
  let yv := if y1 - b.radius ≤ 0 then (b.radius, ratAbs b.vy)
            else if y1 + b.radius ≥ h then (h - b.radius, -(ratAbs b.vy))
            else (y1, b.vy)
  { b with x := xv.1, vx := xv.2, y := yv.1, vy := yv.2 }

/-- `App::resolve_collisions`, body of the inner pair loop: detect contact,
positionally separate, and (when approaching) apply the elastic impulse,
re-assert base speeds and apply the same-team boost.  `pk` is the
`(cos ang, sin ang)` of the random poke used on exact overlap. -/
def resolve_pair (sq : ℚ → ℚ) (pk : ℚ × ℚ) (bi bj : Ball) : Ball × Ball :=
  let dx := bj.x - bi.x
  let dy := bj.y - bi.y
  let rsum := bi.radius + bj.radius
  let dist2 := dx * dx + dy * dy
  if dist2 > rsum * rsum then (bi, bj)
  else
    let dist0 := sq dist2
    let bd := if dist0 = 0 then
        ({ bi with x := bi.x - pk.1 * (1/1000), y := bi.y - pk.2 * (1/1000) },
         (1/1000000 : ℚ))
      else (bi, dist0)
    let bi1 := bd.1
    let dist := bd.2
    let nx := dx / dist
    let ny := dy / dist
    let penetration := rsum - dist
    let corr := penetration / 2 + 1/10000
    let bi2 := { bi1 with x := bi1.x - nx * corr, y := bi1.y - ny * corr }
    let bj2 := { bj with x := bj.x + nx * corr, y := bj.y + ny * corr }
    let rvx := bj2.vx - bi2.vx
    let rvy := bj2.vy - bi2.vy
    let vn := rvx * nx + rvy * ny
    if vn ≥ 0 then (bi2, bj2)
    else
      let jm := -(1 + 98/100) * vn * (1/2)
      let jx := jm * nx
      let jy := jm * ny
      let bi3 := { bi2 with vx := bi2.vx - jx, vy := bi2.vy - jy }
      let bj3 := { bj2 with vx := bj2.vx + jx, vy := bj2.vy + jy }
      let bi4 := maintain_speed sq bi3
      let bj4 := maintain_speed sq bj3
      if bi4.team = bj4.team then
        (maintain_speed sq { bi4 with base_speed := ratMin (bi4.base_speed * TEAM_BOOST) MAX_BASE_SPEED },
         maintain_speed sq { bj4 with base_speed := ratMin (bj4.base_speed * TEAM_BOOST) MAX_BASE_SPEED })
      else (bi4, bj4)

/-- The ordered pair indices `(i, j)`, `i < j < n`, visited by the nested loop. -/
def pairIndices (n : ℕ) : List (ℕ × ℕ) :=
  (List.range n).flatMap (fun i => (List.range (n - (i + 1))).map (fun k => (i, i + 1 + k)))

/-- One pair step of `App::resolve_collisions` on the roster, updating the two
balls in place. -/
def resolve_step (sq : ℚ → ℚ) (poke : ℕ → ℕ → ℚ × ℚ)
    (balls : List Ball) (ij : ℕ × ℕ) : List Ball :=
  match balls.get? ij.1, balls.get? ij.2 with
  | some bi, some bj =>
    let r := resolve_pair sq (poke ij.1 ij.2) bi bj
    (balls.set ij.1 r.1).set ij.2 r.2
  | _, _ => balls

/-- `App::resolve_collisions` : pairwise elastic resolution over the roster in
fixed `(i, j)` nested order, each pair seeing the already-updated state. -/
def resolve_collisions (sq : ℚ → ℚ) (poke : ℕ → ℕ → ℚ × ℚ)
    (balls : List Ball) : List Ball :=
  if balls.length < 2 then balls
  else (pairIndices balls.length).foldl (resolve_step sq poke) balls

/-- Simulation-owned world state of `App` (canvas/DOM/scheduling fields are
I/O-side and omitted; `points_dirty` only gates scoreboard writes). -/
structure AppState where
  css_w : ℚ
  css_h : ℚ
  grid : Grid
  balls : List Ball
  last_ts : ℚ
  speed_mul : ℚ
  points_white : ℕ
  points_black : ℕ
deriving DecidableEq, Repr

/-- The hex circumradius the app derives from the board size:
`(short / 50).clamp(3, 14)`. -/
def app_hex_r (w h : ℚ) : ℚ := ratClamp (ratMin w h / 50) 3 14

/-- `App::reset_grid` : rebuild the grid for the current board size and zero
both point totals (scoreboard/render calls are I/O-side). -/
def reset_grid (sq : ℚ → ℚ) (app : AppState) : AppState :=
  { app with
    grid := Grid.new sq app.css_w app.css_h (app_hex_r app.css_w app.css_h),
    points_white := 0, points_black := 0 }

/-- Phase 3 of `App::tick` for the disc at index `i`: claim territory via
`flip_disc` at the disc's current position, accumulate awarded points, and on a
returned bounce normal (debounced by 15 ms, and only when moving into the
territory) reflect the velocity, re-assert base speed, and stamp the bounce. -/
def claim_step (sq : ℚ → ℚ) (ts : ℚ) (st : Grid × List Ball × ℕ × ℕ) (i : ℕ) :
    Grid × List Ball × ℕ × ℕ :=
  match st.2.1.get? i with
  | none => st
  | some b =>
    let res := flip_disc sq st.1 b.x b.y b.radius b.team
    let pw := st.2.2.1 + res.white_pts
    let pb := st.2.2.2 + res.black_pts
    let balls1 :=
      match res.normal with
      | some (nx, ny) =>
        if b.last_bounce_ts < 0 ∨ ts - b.last_bounce_ts > 15 then
          let dot := b.vx * nx + b.vy * ny
          if dot < 0 then
            st.2.1.set i (maintain_speed sq
              { b with vx := b.vx - 2 * dot * nx, vy := b.vy - 2 * dot * ny,
                       last_bounce_ts := ts })
          else st.2.1
        else st.2.1
      | none => st.2.1
    (res.grid, balls1, pw, pb)

/-- `App::tick` : clamp the frame time to 50 ms, integrate and wall-clamp every
disc, resolve disc-disc collisions, then run the claim/scoring/bounce pass in
roster order. -/
def tick (sq : ℚ → ℚ) (poke : ℕ → ℕ → ℚ × ℚ) (app : AppState) (ts : ℚ) : AppState :=
  let dt := ratClamp ((ts - app.last_ts) / 1000) 0 (1/20)
  let mul := app.speed_mul
  let balls1 := app.balls.map (integrate_walls app.css_w app.css_h dt mul)
  let balls2 := resolve_collisions sq poke balls1
  let st := (List.range balls2.length).foldl (claim_step sq ts)
    (app.grid, balls2, app.points_white, app.points_black)
  { app with last_ts := ts, grid := st.1, balls := st.2.1,
             points_white := st.2.2.1, points_black := st.2.2.2 }

end HexWar

namespace HexWar

/-! ## Characterization of the `flip_disc` loop -/

lemma flipStep_not_qual (sq : ℚ → ℚ) (x y r2 : ℚ) (t : HexColor) (acc : FlipAcc)
    (c : Cell) (h : flipQual x y r2 t c = false) :
    flipStep sq x y r2 t acc c = (acc, c) := by
  unfold flipStep
  by_cases h1 : (c.cx - x) * (c.cx - x) + (c.cy - y) * (c.cy - y) > r2
  · simp [h1]
  · have h2 : c.color = t := by
      simp only [flipQual, Bool.and_eq_false_iff, decide_eq_false_iff_not, cellDist2,
        not_not] at h
      rcases h with h | h
      · exact absurd (not_le.mp h) h1
      · exact h
    simp [h1, h2]

lemma flipStep_snd (sq : ℚ → ℚ) (x y r2 : ℚ) (t : HexColor) (acc : FlipAcc) (c : Cell) :
    (flipStep sq x y r2 t acc c).2 = recolorCell x y r2 t c := by
  by_cases h : flipQual x y r2 t c
  · have h1 : ¬ ((c.cx - x) * (c.cx - x) + (c.cy - y) * (c.cy - y) > r2) := by
      simp only [flipQual, Bool.and_eq_true, decide_eq_true_eq, cellDist2] at h
      exact not_lt.mpr h.1
    have h2 : c.color ≠ t := by
      simp only [flipQual, Bool.and_eq_true, decide_eq_true_eq] at h
      exact h.2
    unfold flipStep recolorCell
    simp only [h, if_true, h1, if_false, h2]
    split <;> rfl
  · rw [flipStep_not_qual sq x y r2 t acc c (by simpa using h)]
    unfold recolorCell
    simp [h]

lemma flipStep_white (sq : ℚ → ℚ) (x y r2 : ℚ) (t : HexColor) (acc : FlipAcc) (c : Cell) :
    (flipStep sq x y r2 t acc c).1.white_pts =
      acc.white_pts +
        (if flipQual x y r2 t c && decide (t = HexColor.White) then 1 else 0) := by
  by_cases h : flipQual x y r2 t c
  · have h1 : ¬ ((c.cx - x) * (c.cx - x) + (c.cy - y) * (c.cy - y) > r2) := by
      simp only [flipQual, Bool.and_eq_true, decide_eq_true_eq, cellDist2] at h
      exact not_lt.mpr h.1
    have h2 : c.color ≠ t := by
      simp only [flipQual, Bool.and_eq_true, decide_eq_true_eq] at h
      exact h.2
    unfold flipStep
    simp only [h1, if_false, h2, if_neg]
    cases hc : c.color <;> cases ht : t <;>
      simp_all [flipStep] <;> split <;> simp_all
  · rw [flipStep_not_qual sq x y r2 t acc c (by simpa using h)]
    simp [h]

lemma flipStep_black (sq : ℚ → ℚ) (x y r2 : ℚ) (t : HexColor) (acc : FlipAcc) (c : Cell) :
    (flipStep sq x y r2 t acc c).1.black_pts =
      acc.black_pts +
        (if flipQual x y r2 t c && decide (t = HexColor.Black) then 1 else 0) := by
  by_cases h : flipQual x y r2 t c
  · have h1 : ¬ ((c.cx - x) * (c.cx - x) + (c.cy - y) * (c.cy - y) > r2) := by
      simp only [flipQual, Bool.and_eq_true, decide_eq_true_eq, cellDist2] at h
      exact not_lt.mpr h.1
    have h2 : c.color ≠ t := by
      simp only [flipQual, Bool.and_eq_true, decide_eq_true_eq] at h
      exact h.2
    unfold flipStep
    simp only [h1, if_false, h2, if_neg]
    cases hc : c.color <;> cases ht : t <;>
      simp_all [flipStep] <;> split <;> simp_all
  · rw [flipStep_not_qual sq x y r2 t acc c (by simpa using h)]
    simp [h]

lemma flipStep_hits (sq : ℚ → ℚ) (x y r2 : ℚ) (t : HexColor) (acc : FlipAcc) (c : Cell) :
    (flipStep sq x y r2 t acc c).1.hits =
      acc.hits + (if hitQual sq x y r2 t c then 1 else 0) := by
  by_cases h : flipQual x y r2 t c
  · have h1 : ¬ ((c.cx - x) * (c.cx - x) + (c.cy - y) * (c.cy - y) > r2) := by
      simp only [flipQual, Bool.and_eq_true, decide_eq_true_eq, cellDist2] at h
      exact not_lt.mpr h.1
    have h2 : c.color ≠ t := by
      simp only [flipQual, Bool.and_eq_true, decide_eq_true_eq] at h
      exact h.2
    unfold flipStep hitQual cellNrm2
    simp only [h1, if_false, h2, if_neg, h, Bool.true_and]
    cases hc : c.color <;> cases ht : t <;> simp_all <;> split <;> simp_all
  · rw [flipStep_not_qual sq x y r2 t acc c (by simpa using h)]
    simp [hitQual, h]

lemma flipGo_snd (sq : ℚ → ℚ) (x y r2 : ℚ) (t : HexColor) (cs : List Cell) (acc : FlipAcc) :
    (flipGo sq x y r2 t acc cs).2 = cs.map (recolorCell x y r2 t) := by
  induction cs generalizing acc with
  | nil => rfl
  | cons c cs ih => simp [flipGo, flipStep_snd, ih]

lemma flipGo_white (sq : ℚ → ℚ) (x y r2 : ℚ) (t : HexColor) (cs : List Cell) (acc : FlipAcc) :
    (flipGo sq x y r2 t acc cs).1.white_pts =
      acc.white_pts +
        cs.countP (fun c => flipQual x y r2 t c && decide (t = HexColor.White)) := by
  induction cs generalizing acc with
  | nil => simp [flipGo]
  | cons c cs ih =>
    simp only [flipGo, List.countP_cons, ih, flipStep_white]
    by_cases h : (flipQual x y r2 t c && decide (t = HexColor.White)) = true <;>
      simp [h] <;> omega

lemma flipGo_black (sq : ℚ → ℚ) (x y r2 : ℚ) (t : HexColor) (cs : List Cell) (acc : FlipAcc) :
    (flipGo sq x y r2 t acc cs).1.black_pts =
      acc.black_pts +
        cs.countP (fun c => flipQual x y r2 t c && decide (t = HexColor.Black)) := by
  induction cs generalizing acc with
  | nil => simp [flipGo]
  | cons c cs ih =>
    simp only [flipGo, List.countP_cons, ih, flipStep_black]
    by_cases h : (flipQual x y r2 t c && decide (t = HexColor.Black)) = true <;>
      simp [h] <;> omega

lemma flipGo_hits (sq : ℚ → ℚ) (x y r2 : ℚ) (t : HexColor) (cs : List Cell) (acc : FlipAcc) :
    (flipGo sq x y r2 t acc cs).1.hits =
      acc.hits + cs.countP (hitQual sq x y r2 t) := by
  induction cs generalizing acc with
  | nil => simp [flipGo]
  | cons c cs ih =>
    simp only [flipGo, List.countP_cons, ih, flipStep_hits]
    by_cases h : hitQual sq x y r2 t c = true <;> simp [h] <;> omega

lemma flip_disc_grid_cells (sq : ℚ → ℚ) (g : Grid) (x y radius : ℚ) (team : Team) :
    (flip_disc sq g x y radius team).grid.cells =
      g.cells.map (recolorCell x y (radius * radius) (teamColor team)) := by
  unfold flip_disc
  simp [flipGo_snd]

lemma flip_disc_white (sq : ℚ → ℚ) (g : Grid) (x y radius : ℚ) (team : Team) :
    (flip_disc sq g x y radius team).white_pts =
      if teamColor team = HexColor.White then
        g.cells.countP (flipQual x y (radius * radius) (teamColor team)) else 0 := by
  unfold flip_disc
  simp only [flipGo_white]
  cases team <;> simp [teamColor]

lemma flip_disc_black (sq : ℚ → ℚ) (g : Grid) (x y radius : ℚ) (team : Team) :
    (flip_disc sq g x y radius team).black_pts =
      if teamColor team = HexColor.Black then
        g.cells.countP (flipQual x y (radius * radius) (teamColor team)) else 0 := by
  unfold flip_disc
  simp only [flipGo_black]
  cases team <;> simp [teamColor]

lemma flip_disc_normal_none (sq : ℚ → ℚ) (g : Grid) (x y radius : ℚ) (team : Team)
    (h : g.cells.countP (flipQual x y (radius * radius) (teamColor team)) = 0) :
    (flip_disc sq g x y radius team).normal = none := by
  have hh : g.cells.countP (hitQual sq x y (radius * radius) (teamColor team)) = 0 :=
    Nat.le_zero.mp (h ▸ List.countP_mono_left
      (fun c _ hc => by
        simp only [hitQual, Bool.and_eq_true] at hc
        exact hc.1))
  unfold flip_disc
  simp [flipGo_hits, hh]

/-! ## Claim C1 -/

/-- C1: `flip_disc` recolors exactly the cells whose center is within `radius`
of `(x, y)` (squared-distance test, boundary inclusive) and whose color differs
from the team's target color (every other cell is untouched); it awards exactly
one point per recolored cell, to White when the team's target color is White
and to Black when it is Black, and no points to the other team; and when no
cell is recolored the returned bounce normal is `none`. -/
theorem claim_C1 (sq : ℚ → ℚ) (g : Grid) (x y radius : ℚ) (team : Team) :
    (flip_disc sq g x y radius team).grid.cells =
        g.cells.map (recolorCell x y (radius * radius) (teamColor team))
    ∧ (flip_disc sq g x y radius team).white_pts =
        (if teamColor team = HexColor.White then
          g.cells.countP (flipQual x y (radius * radius) (teamColor team)) else 0)
    ∧ (flip_disc sq g x y radius team).black_pts =
        (if teamColor team = HexColor.Black then
          g.cells.countP (flipQual x y (radius * radius) (teamColor team)) else 0)
    ∧ (g.cells.countP (flipQual x y (radius * radius) (teamColor team)) = 0 →
        (flip_disc sq g x y radius team).normal = none) :=
  ⟨flip_disc_grid_cells sq g x y radius team,
   flip_disc_white sq g x y radius team,
   flip_disc_black sq g x y radius team,
   fun h => flip_disc_normal_none sq g x y radius team h⟩

/-- C1 witness: a concrete one-cell grid whose cell lies outside the disc, so
nothing qualifies and the returned normal is `none`. -/
theorem claim_C1_witness :
    (flip_disc ratSqrt ⟨[⟨0, 0, 10, 10, HexColor.Black⟩], 1, 1, 3, 3⟩
        0 0 1 Team.White).normal = none :=
  (claim_C1 ratSqrt ⟨[⟨0, 0, 10, 10, HexColor.Black⟩], 1, 1, 3, 3⟩
    0 0 1 Team.White).2.2.2 (by decide)

/-! ## Claim C6 -/

lemma flipQual_recolorCell (x y r2 : ℚ) (t : HexColor) (c : Cell) :
    flipQual x y r2 t (recolorCell x y r2 t c) = false := by
  unfold recolorCell
  by_cases h : flipQual x y r2 t c
  · simp only [h, if_true]
    unfold flipQual cellDist2
    simp
  · rw [if_neg h]
    simpa using h

lemma countP_flipQual_recolored (x y r2 : ℚ) (t : HexColor) (cs : List Cell) :
    (cs.map (recolorCell x y r2 t)).countP (flipQual x y r2 t) = 0 := by
  rw [List.countP_eq_zero]
  intro a ha
  rcases List.mem_map.mp ha with ⟨c, _, rfl⟩
  simp [flipQual_recolorCell]

lemma recolorCell_idem (x y r2 : ℚ) (t : HexColor) (c : Cell) :
    recolorCell x y r2 t (recolorCell x y r2 t c) = recolorCell x y r2 t c := by
  conv_lhs => rw [recolorCell]
  simp [flipQual_recolorCell]

/-- C6: calling `flip_disc` twice in immediate succession with identical
arguments awards zero points, returns no bounce normal on the second call, and
leaves the grid of the first call unchanged. -/
theorem claim_C6 (sq : ℚ → ℚ) (g : Grid) (x y radius : ℚ) (team : Team) :
    (flip_disc sq ((flip_disc sq g x y radius team).grid) x y radius team).white_pts = 0
    ∧ (flip_disc sq ((flip_disc sq g x y radius team).grid) x y radius team).black_pts = 0
    ∧ (flip_disc sq ((flip_disc sq g x y radius team).grid) x y radius team).normal = none
    ∧ (flip_disc sq ((flip_disc sq g x y radius team).grid) x y radius team).grid =
        (flip_disc sq g x y radius team).grid := by
  have hz : ((flip_disc sq g x y radius team).grid).cells.countP
      (flipQual x y (radius * radius) (teamColor team)) = 0 := by
    rw [flip_disc_grid_cells]
    exact countP_flipQual_recolored x y (radius * radius) (teamColor team) g.cells
  refine ⟨?_, ?_, flip_disc_normal_none _ _ _ _ _ _ hz, ?_⟩
  · rw [flip_disc_white, hz]
    simp
  · rw [flip_disc_black, hz]
    simp
  · have hcells : (flip_disc sq ((flip_disc sq g x y radius team).grid) x y radius team).grid.cells =
        ((flip_disc sq g x y radius team).grid).cells := by
      rw [flip_disc_grid_cells, flip_disc_grid_cells]
      rw [List.map_map]
      exact List.map_congr_left (fun c _ => recolorCell_idem x y (radius * radius) (teamColor team) c)
    show ({ (flip_disc sq g x y radius team).grid with
        cells := (flipGo sq x y (radius * radius) (teamColor team) ⟨0, 0, 0, 0, 0⟩
          ((flip_disc sq g x y radius team).grid).cells).2 } : Grid) =
      (flip_disc sq g x y radius team).grid
    rw [show (flipGo sq x y (radius * radius) (teamColor team) ⟨0, 0, 0, 0, 0⟩
        ((flip_disc sq g x y radius team).grid).cells).2 =
        ((flip_disc sq g x y radius team).grid).cells from by
      rw [flipGo_snd]
      have := hcells
      rw [flip_disc_grid_cells] at this
      simpa [flipGo_snd] using this]

/-! ## Claim C3 -/

/-- A sequence of `flip_disc` calls by a fixed team (each entry is `(x, y, radius)`),
returning the cumulative `white + black` points and the final grid, as the tick
loop accumulates them into `points_white` / `points_black`. -/
def flip_calls (sq : ℚ → ℚ) (team : Team) : Grid → List (ℚ × ℚ × ℚ) → ℕ × Grid
  | g, [] => (0, g)
  | g, c :: rest =>
    let res := flip_disc sq g c.1 c.2.1 c.2.2 team
    let r2 := flip_calls sq team res.grid rest
    (res.white_pts + res.black_pts + r2.1, r2.2)

lemma countP_notTarget_recolored (x y r2 : ℚ) (t : HexColor) (cs : List Cell) :
    (cs.map (recolorCell x y r2 t)).countP (fun c => decide (c.color ≠ t))
      + cs.countP (flipQual x y r2 t)
      = cs.countP (fun c => decide (c.color ≠ t)) := by
  induction cs with
  | nil => simp
  | cons c cs ih =>
    simp only [List.map_cons, List.countP_cons]
    by_cases h : flipQual x y r2 t c
    · have h2 : c.color ≠ t := by
        simp only [flipQual, Bool.and_eq_true, decide_eq_true_eq] at h
        exact h.2
      have h3 : (recolorCell x y r2 t c).color = t := by
        unfold recolorCell
        rw [if_pos h]
      have e1 : ¬ (decide ((recolorCell x y r2 t c).color ≠ t) = true) := by simp [h3]
      have e3 : decide (c.color ≠ t) = true := by simp [h2]
      rw [if_neg e1, if_pos h, if_pos e3]
      omega
    · have h4 : recolorCell x y r2 t c = c := by
        unfold recolorCell
        rw [if_neg h]
      rw [h4, if_neg h]
      by_cases h5 : decide (c.color ≠ t) = true
      · rw [if_pos h5]
        omega
      · rw [if_neg h5]
        omega

lemma flip_disc_total (sq : ℚ → ℚ) (g : Grid) (x y radius : ℚ) (team : Team) :
    (flip_disc sq g x y radius team).white_pts + (flip_disc sq g x y radius team).black_pts
      = g.cells.countP (flipQual x y (radius * radius) (teamColor team)) := by
  rw [flip_disc_white, flip_disc_black]
  cases team <;> simp [teamColor]

lemma flip_calls_le_notTarget (sq : ℚ → ℚ) (team : Team) (calls : List (ℚ × ℚ × ℚ)) :
    ∀ g : Grid, (flip_calls sq team g calls).1 ≤
      g.cells.countP (fun c => decide (c.color ≠ teamColor team)) := by
  induction calls with
  | nil => intro g; simp [flip_calls]
  | cons c rest ih =>
    intro g
    have hsum := flip_disc_total sq g c.1 c.2.1 c.2.2 team
    have hrec := countP_notTarget_recolored c.1 c.2.1 (c.2.2 * c.2.2) (teamColor team) g.cells
    have ih2 := ih ((flip_disc sq g c.1 c.2.1 c.2.2 team).grid)
    rw [flip_disc_grid_cells] at ih2
    show (flip_disc sq g c.1 c.2.1 c.2.2 team).white_pts
      + (flip_disc sq g c.1 c.2.1 c.2.2 team).black_pts
      + (flip_calls sq team (flip_disc sq g c.1 c.2.1 c.2.2 team).grid rest).1
      ≤ g.cells.countP (fun c => decide (c.color ≠ teamColor team))
    omega

/-- C3 counterexample: on the one-cell grid built for a 1×1 board, a White
flip followed by a Black flip at the cell center awards one point each, so the
cumulative `points_white + points_black` after this two-flip sequence is 2,
exceeding the total cell count 1. -/
theorem claim_C3_cex :
    (Grid.new ratSqrt 1 1 3).cells.length = 1
    ∧ ¬ ((flip_disc ratSqrt (Grid.new ratSqrt 1 1 3) 3 (3/2) 1 Team.White).white_pts
        + (flip_disc ratSqrt (Grid.new ratSqrt 1 1 3) 3 (3/2) 1 Team.White).black_pts
        + ((flip_disc ratSqrt
            (flip_disc ratSqrt (Grid.new ratSqrt 1 1 3) 3 (3/2) 1 Team.White).grid
            3 (3/2) 1 Team.Black).white_pts
          + (flip_disc ratSqrt
            (flip_disc ratSqrt (Grid.new ratSqrt 1 1 3) 3 (3/2) 1 Team.White).grid
            3 (3/2) 1 Team.Black).black_pts)
        ≤ (Grid.new ratSqrt 1 1 3).cells.length) := by
  decide

/-- C3 (amended): for every sequence of `flip_disc` calls by a single fixed
team since the last reset, the cumulative `points_white + points_black` never
exceeds the total number of cells (alternating teams can exceed it, as the
counterexample shows); and each individual `flip_disc` call awards exactly one
point per recolored cell, all to one team — the other team always gets zero, so
no cell flip ever awards a point to both teams. -/
theorem claim_C3_amended (sq : ℚ → ℚ) (team : Team) (g : Grid)
    (calls : List (ℚ × ℚ × ℚ)) (x y rad : ℚ) :
    (flip_calls sq team g calls).1 ≤ g.cells.length
    ∧ (flip_disc sq g x y rad team).white_pts + (flip_disc sq g x y rad team).black_pts
        = g.cells.countP (flipQual x y (rad * rad) (teamColor team))
    ∧ ((flip_disc sq g x y rad team).white_pts = 0
        ∨ (flip_disc sq g x y rad team).black_pts = 0) := by
  refine ⟨?_, flip_disc_total sq g x y rad team, ?_⟩
  · exact le_trans (flip_calls_le_notTarget sq team calls g) (List.countP_le_length _)
  · rw [flip_disc_white, flip_disc_black]
    cases team <;> simp [teamColor]

/-! ## Claim C9 -/

/-- C9: `flip_disc` can award positive points yet return a `none` bounce
normal.  First scenario: two Black cells placed symmetrically about the disc
center are both recolored (two White points) but their unit vectors cancel, the
summed normal has length `0 ≤ 1e-6`, and the normal is `none`.  Second
scenario: a single Black cell whose center coincides with `(x, y)` is recolored
(one White point) but lies within `1e-6` of the center, contributes nothing to
the accumulator, and the normal is `none`. -/
theorem claim_C9 :
    ((flip_disc ratSqrt
        ⟨[⟨0, 0, 10, 10, HexColor.Black⟩, ⟨0, 1, 10, 20, HexColor.Black⟩], 1, 2, 10, 10⟩
        10 15 10 Team.White).white_pts = 2
      ∧ (flip_disc ratSqrt
        ⟨[⟨0, 0, 10, 10, HexColor.Black⟩, ⟨0, 1, 10, 20, HexColor.Black⟩], 1, 2, 10, 10⟩
        10 15 10 Team.White).normal = none)
    ∧ ((flip_disc ratSqrt ⟨[⟨0, 0, 10, 15, HexColor.Black⟩], 1, 1, 10, 10⟩
        10 15 10 Team.White).white_pts = 1
      ∧ (flip_disc ratSqrt ⟨[⟨0, 0, 10, 15, HexColor.Black⟩], 1, 1, 10, 10⟩
        10 15 10 Team.White).normal = none) := by
  decide

/-! ## Claim C10 -/

/-- C10: when a disc's velocity magnitude is at most `1e-6` — stated over ℚ as
`vx² + vy² ≤ (1e-6)²` — the guard in `maintain_speed` fails (given that the
square-root oracle is exact and nonnegative at `vx² + vy²`), so the base-speed
re-assertion leaves the disc, in particular its velocity, entirely unchanged:
there is no division by the magnitude at all. -/
theorem claim_C10 (sq : ℚ → ℚ) (b : Ball)
    (hnn : 0 ≤ sq (b.vx * b.vx + b.vy * b.vy))
    (hex : sq (b.vx * b.vx + b.vy * b.vy) * sq (b.vx * b.vx + b.vy * b.vy)
      = b.vx * b.vx + b.vy * b.vy)
    (hsmall : b.vx * b.vx + b.vy * b.vy ≤ (1/1000000) * (1/1000000)) :
    maintain_speed sq b = b := by
  have hle : sq (b.vx * b.vx + b.vy * b.vy) ≤ 1/1000000 := by
    by_contra hgt
    push_neg at hgt
    nlinarith [hgt, hex, hsmall]
  unfold maintain_speed
  rw [if_neg (not_lt.mpr hle)]

/-- C10 witness: a stationary disc with `ratSqrt` (where `ratSqrt 0 = 0`) is
left unchanged by `maintain_speed`. -/
theorem claim_C10_witness :
    maintain_speed ratSqrt
      ⟨50, 50, 0, 0, Team.White, 10, 200, -1⟩ = ⟨50, 50, 0, 0, Team.White, 10, 200, -1⟩ :=
  claim_C10 ratSqrt ⟨50, 50, 0, 0, Team.White, 10, 200, -1⟩
    (by decide) (by decide) (by decide)

/-! ## Claims C4 and C7: pairwise collision resolution -/

/-- Squared center distance of a pair, as the collision loop computes it. -/
def pairDist2 (bi bj : Ball) : ℚ :=
  (bj.x - bi.x) * (bj.x - bi.x) + (bj.y - bi.y) * (bj.y - bi.y)

/-- x component of the contact normal (unit vector from `bi` to `bj`). -/
def pairNx (sq : ℚ → ℚ) (bi bj : Ball) : ℚ := (bj.x - bi.x) / sq (pairDist2 bi bj)

/-- y component of the contact normal. -/
def pairNy (sq : ℚ → ℚ) (bi bj : Ball) : ℚ := (bj.y - bi.y) / sq (pairDist2 bi bj)

/-- Relative velocity along the contact normal. -/
def pairVn (sq : ℚ → ℚ) (bi bj : Ball) : ℚ :=
  (bj.vx - bi.vx) * pairNx sq bi bj + (bj.vy - bi.vy) * pairNy sq bi bj

/-- Positional correction: half the penetration depth plus the `1e-4` bias. -/
def pairCorr (sq : ℚ → ℚ) (bi bj : Ball) : ℚ :=
  ((bi.radius + bj.radius) - sq (pairDist2 bi bj)) / 2 + 1/10000

/-- Impulse magnitude `-(1 + 0.98) · vn / 2` (equal unit masses). -/
def impulseJ (sq : ℚ → ℚ) (bi bj : Ball) : ℚ := -(1 + 98/100) * pairVn sq bi bj * (1/2)

/-- Post-impulse x velocity of disc `i` (impulse applied negatively). -/
def impulseVix (sq : ℚ → ℚ) (bi bj : Ball) : ℚ :=
  bi.vx - impulseJ sq bi bj * pairNx sq bi bj

/-- Post-impulse y velocity of disc `i`. -/
def impulseViy (sq : ℚ → ℚ) (bi bj : Ball) : ℚ :=
  bi.vy - impulseJ sq bi bj * pairNy sq bi bj

/-- Post-impulse x velocity of disc `j` (equal and opposite impulse). -/
def impulseVjx (sq : ℚ → ℚ) (bi bj : Ball) : ℚ :=
  bj.vx + impulseJ sq bi bj * pairNx sq bi bj

/-- Post-impulse y velocity of disc `j`. -/
def impulseVjy (sq : ℚ → ℚ) (bi bj : Ball) : ℚ :=
  bj.vy + impulseJ sq bi bj * pairNy sq bi bj


/-- The positionally corrected and impulsed disc `i` (the state of `bi` in
`resolve_collisions` right after the impulse is applied, before any base-speed
re-assertion). -/
def postImpulseI (sq : ℚ → ℚ) (bi bj : Ball) : Ball :=
  { bi with
    x := bi.x - pairNx sq bi bj * pairCorr sq bi bj,
    y := bi.y - pairNy sq bi bj * pairCorr sq bi bj,
    vx := impulseVix sq bi bj,
    vy := impulseViy sq bi bj }

/-- The positionally corrected and impulsed disc `j`. -/
def postImpulseJ (sq : ℚ → ℚ) (bi bj : Ball) : Ball :=
  { bj with
    x := bj.x + pairNx sq bi bj * pairCorr sq bi bj,
    y := bj.y + pairNy sq bi bj * pairCorr sq bi bj,
    vx := impulseVjx sq bi bj,
    vy := impulseVjy sq bi bj }

/-- The tail of the `resolve_collisions` pair body after the impulse: re-assert
base speeds and, for same-team pairs, boost both base speeds (capped) and
re-assert again. -/
def postStage (sq : ℚ → ℚ) (u v : Ball) : Ball × Ball :=
  if (maintain_speed sq u).team = (maintain_speed sq v).team then
    (maintain_speed sq { maintain_speed sq u with
        base_speed := ratMin ((maintain_speed sq u).base_speed * TEAM_BOOST) MAX_BASE_SPEED },
     maintain_speed sq { maintain_speed sq v with
        base_speed := ratMin ((maintain_speed sq v).base_speed * TEAM_BOOST) MAX_BASE_SPEED })
  else (maintain_speed sq u, maintain_speed sq v)

/-- On contact (`dist² ≤ rsum²`), nondegenerate distance, and approaching
discs, `resolve_pair` is the positional correction followed by the equal and
opposite impulse, then the re-assertion/boost stage. -/
lemma resolve_pair_eq_approaching (sq : ℚ → ℚ) (pk : ℚ × ℚ) (bi bj : Ball)
    (hc : pairDist2 bi bj ≤ (bi.radius + bj.radius) * (bi.radius + bj.radius))
    (hd : sq (pairDist2 bi bj) ≠ 0)
    (hv : pairVn sq bi bj < 0) :
    resolve_pair sq pk bi bj =
      postStage sq (postImpulseI sq bi bj) (postImpulseJ sq bi bj) := by
  unfold pairDist2 at hc hd
  unfold pairVn pairNx pairNy pairDist2 at hv
  simp only [resolve_pair, not_lt.mpr hc, if_false, if_neg hd]
  simp only [postStage, postImpulseI, postImpulseJ, impulseVix, impulseViy, impulseVjx,
    impulseVjy, pairNx, pairNy, pairCorr, impulseJ, pairVn, pairDist2]
  rw [if_neg (not_le.mpr hv)]

/-- On contact and nondegenerate distance, with the discs moving apart
(`vn ≥ 0`), `resolve_pair` applies exactly the positional correction and
nothing else. -/
lemma resolve_pair_eq_separating (sq : ℚ → ℚ) (pk : ℚ × ℚ) (bi bj : Ball)
    (hc : pairDist2 bi bj ≤ (bi.radius + bj.radius) * (bi.radius + bj.radius))
    (hd : sq (pairDist2 bi bj) ≠ 0)
    (hv : pairVn sq bi bj ≥ 0) :
    resolve_pair sq pk bi bj =
      ({ bi with
          x := bi.x - pairNx sq bi bj * pairCorr sq bi bj,
          y := bi.y - pairNy sq bi bj * pairCorr sq bi bj },
       { bj with
          x := bj.x + pairNx sq bi bj * pairCorr sq bi bj,
          y := bj.y + pairNy sq bi bj * pairCorr sq bi bj }) := by
  unfold pairDist2 at hc hd
  unfold pairVn pairNx pairNy pairDist2 at hv
  simp only [resolve_pair, not_lt.mpr hc, if_false, if_neg hd]
  simp only [pairNx, pairNy, pairCorr, pairDist2]
  rw [if_pos hv]

/-- Out of contact (`dist² > rsum²`), `resolve_pair` changes nothing. -/
lemma resolve_pair_eq_apart (sq : ℚ → ℚ) (pk : ℚ × ℚ) (bi bj : Ball)
    (hfar : pairDist2 bi bj > (bi.radius + bj.radius) * (bi.radius + bj.radius)) :
    resolve_pair sq pk bi bj = (bi, bj) := by
  unfold pairDist2 at hfar
  simp only [resolve_pair, hfar, if_true]

lemma maintain_speed_x (sq : ℚ → ℚ) (b : Ball) : (maintain_speed sq b).x = b.x := by
  simp only [maintain_speed]
  split <;> rfl

lemma maintain_speed_y (sq : ℚ → ℚ) (b : Ball) : (maintain_speed sq b).y = b.y := by
  simp only [maintain_speed]
  split <;> rfl

lemma maintain_speed_team (sq : ℚ → ℚ) (b : Ball) : (maintain_speed sq b).team = b.team := by
  simp only [maintain_speed]
  split <;> rfl

lemma maintain_speed_base (sq : ℚ → ℚ) (b : Ball) :
    (maintain_speed sq b).base_speed = b.base_speed := by
  simp only [maintain_speed]
  split <;> rfl

/-- When the guard passes and the oracle is an exact square root of the squared
magnitude, `maintain_speed` makes the squared speed exactly `base_speed²`. -/
lemma maintain_speed_mag (sq : ℚ → ℚ) (b : Ball)
    (hg : sq (b.vx * b.vx + b.vy * b.vy) > 1/1000000)
    (hex : sq (b.vx * b.vx + b.vy * b.vy) * sq (b.vx * b.vx + b.vy * b.vy)
      = b.vx * b.vx + b.vy * b.vy) :
    (maintain_speed sq b).vx * (maintain_speed sq b).vx
      + (maintain_speed sq b).vy * (maintain_speed sq b).vy
      = b.base_speed * b.base_speed := by
  simp only [maintain_speed]
  rw [if_pos hg]
  have hm : sq (b.vx * b.vx + b.vy * b.vy) ≠ 0 :=
    ne_of_gt (lt_trans (by norm_num) hg)
  field_simp
  linear_combination (-(b.base_speed * b.base_speed)) * hex

lemma postStage_team_cond (sq : ℚ → ℚ) (u v : Ball) :
    ((maintain_speed sq u).team = (maintain_speed sq v).team) = (u.team = v.team) := by
  rw [maintain_speed_team, maintain_speed_team]

lemma postStage_fst_base (sq : ℚ → ℚ) (u v : Ball) :
    (postStage sq u v).1.base_speed =
      if u.team = v.team then ratMin (u.base_speed * TEAM_BOOST) MAX_BASE_SPEED
      else u.base_speed := by
  unfold postStage
  simp only [postStage_team_cond]
  by_cases ht : u.team = v.team
  · rw [if_pos ht, if_pos ht]
    show (maintain_speed sq _).base_speed = _
    rw [maintain_speed_base]
    show ratMin ((maintain_speed sq u).base_speed * TEAM_BOOST) MAX_BASE_SPEED = _
    rw [maintain_speed_base]
  · rw [if_neg ht, if_neg ht]
    exact maintain_speed_base sq u

lemma postStage_snd_base (sq : ℚ → ℚ) (u v : Ball) :
    (postStage sq u v).2.base_speed =
      if u.team = v.team then ratMin (v.base_speed * TEAM_BOOST) MAX_BASE_SPEED
      else v.base_speed := by
  unfold postStage
  simp only [postStage_team_cond]
  by_cases ht : u.team = v.team
  · rw [if_pos ht, if_pos ht]
    show (maintain_speed sq _).base_speed = _
    rw [maintain_speed_base]
    show ratMin ((maintain_speed sq v).base_speed * TEAM_BOOST) MAX_BASE_SPEED = _
    rw [maintain_speed_base]
  · rw [if_neg ht, if_neg ht]
    exact maintain_speed_base sq v

lemma postStage_fst_x (sq : ℚ → ℚ) (u v : Ball) : (postStage sq u v).1.x = u.x := by
  unfold postStage
  split
  · show (maintain_speed sq _).x = _
    rw [maintain_speed_x]
    show ({ maintain_speed sq u with
      base_speed := ratMin ((maintain_speed sq u).base_speed * TEAM_BOOST) MAX_BASE_SPEED } : Ball).x = _
    show (maintain_speed sq u).x = _
    rw [maintain_speed_x]
  · exact maintain_speed_x sq u

lemma postStage_fst_y (sq : ℚ → ℚ) (u v : Ball) : (postStage sq u v).1.y = u.y := by
  unfold postStage
  split
  · show (maintain_speed sq _).y = _
    rw [maintain_speed_y]
    show (maintain_speed sq u).y = _
    rw [maintain_speed_y]
  · exact maintain_speed_y sq u

lemma postStage_snd_x (sq : ℚ → ℚ) (u v : Ball) : (postStage sq u v).2.x = v.x := by
  unfold postStage
  split
  · show (maintain_speed sq _).x = _
    rw [maintain_speed_x]
    show (maintain_speed sq v).x = _
    rw [maintain_speed_x]
  · exact maintain_speed_x sq v

lemma postStage_snd_y (sq : ℚ → ℚ) (u v : Ball) : (postStage sq u v).2.y = v.y := by
  unfold postStage
  split
  · show (maintain_speed sq _).y = _
    rw [maintain_speed_y]
    show (maintain_speed sq v).y = _
    rw [maintain_speed_y]
  · exact maintain_speed_y sq v

lemma postStage_fst_speed_diff (sq : ℚ → ℚ) (u v : Ball) (ht : u.team ≠ v.team)
    (hg : sq (u.vx * u.vx + u.vy * u.vy) > 1/1000000)
    (hex : sq (u.vx * u.vx + u.vy * u.vy) * sq (u.vx * u.vx + u.vy * u.vy)
      = u.vx * u.vx + u.vy * u.vy) :
    (postStage sq u v).1.vx * (postStage sq u v).1.vx
      + (postStage sq u v).1.vy * (postStage sq u v).1.vy
      = u.base_speed * u.base_speed := by
  unfold postStage
  simp only [postStage_team_cond]
  rw [if_neg ht]
  exact maintain_speed_mag sq u hg hex

lemma postStage_snd_speed_diff (sq : ℚ → ℚ) (u v : Ball) (ht : u.team ≠ v.team)
    (hg : sq (v.vx * v.vx + v.vy * v.vy) > 1/1000000)
    (hex : sq (v.vx * v.vx + v.vy * v.vy) * sq (v.vx * v.vx + v.vy * v.vy)
      = v.vx * v.vx + v.vy * v.vy) :
    (postStage sq u v).2.vx * (postStage sq u v).2.vx
      + (postStage sq u v).2.vy * (postStage sq u v).2.vy
      = v.base_speed * v.base_speed := by
  unfold postStage
  simp only [postStage_team_cond]
  rw [if_neg ht]
  exact maintain_speed_mag sq v hg hex

lemma postStage_fst_speed_same (sq : ℚ → ℚ) (u v : Ball) (ht : u.team = v.team)
    (hg1 : sq (u.vx * u.vx + u.vy * u.vy) > 1/1000000)
    (hex1 : sq (u.vx * u.vx + u.vy * u.vy) * sq (u.vx * u.vx + u.vy * u.vy)
      = u.vx * u.vx + u.vy * u.vy)
    (hg2 : sq (u.base_speed * u.base_speed) > 1/1000000)
    (hex2 : sq (u.base_speed * u.base_speed) * sq (u.base_speed * u.base_speed)
      = u.base_speed * u.base_speed) :
    (postStage sq u v).1.vx * (postStage sq u v).1.vx
      + (postStage sq u v).1.vy * (postStage sq u v).1.vy
      = ratMin (u.base_speed * TEAM_BOOST) MAX_BASE_SPEED
        * ratMin (u.base_speed * TEAM_BOOST) MAX_BASE_SPEED := by
  have hnorm := maintain_speed_mag sq u hg1 hex1
  simp only [postStage, postStage_team_cond]
  rw [if_pos ht]
  have hg_w : sq ((maintain_speed sq u).vx * (maintain_speed sq u).vx
      + (maintain_speed sq u).vy * (maintain_speed sq u).vy) > 1/1000000 := by
    rw [hnorm]
    exact hg2
  have hex_w : sq ((maintain_speed sq u).vx * (maintain_speed sq u).vx
      + (maintain_speed sq u).vy * (maintain_speed sq u).vy)
      * sq ((maintain_speed sq u).vx * (maintain_speed sq u).vx
        + (maintain_speed sq u).vy * (maintain_speed sq u).vy)
      = (maintain_speed sq u).vx * (maintain_speed sq u).vx
        + (maintain_speed sq u).vy * (maintain_speed sq u).vy := by
    rw [hnorm]
    exact hex2
  have hmw := maintain_speed_mag sq
    { maintain_speed sq u with
      base_speed := ratMin ((maintain_speed sq u).base_speed * TEAM_BOOST) MAX_BASE_SPEED }
    hg_w hex_w
  exact hmw.trans (by
    show ratMin ((maintain_speed sq u).base_speed * TEAM_BOOST) MAX_BASE_SPEED
      * ratMin ((maintain_speed sq u).base_speed * TEAM_BOOST) MAX_BASE_SPEED = _
    rw [maintain_speed_base])

lemma postStage_snd_speed_same (sq : ℚ → ℚ) (u v : Ball) (ht : u.team = v.team)
    (hg1 : sq (v.vx * v.vx + v.vy * v.vy) > 1/1000000)
    (hex1 : sq (v.vx * v.vx + v.vy * v.vy) * sq (v.vx * v.vx + v.vy * v.vy)
      = v.vx * v.vx + v.vy * v.vy)
    (hg2 : sq (v.base_speed * v.base_speed) > 1/1000000)
    (hex2 : sq (v.base_speed * v.base_speed) * sq (v.base_speed * v.base_speed)
      = v.base_speed * v.base_speed) :
    (postStage sq u v).2.vx * (postStage sq u v).2.vx
      + (postStage sq u v).2.vy * (postStage sq u v).2.vy
      = ratMin (v.base_speed * TEAM_BOOST) MAX_BASE_SPEED
        * ratMin (v.base_speed * TEAM_BOOST) MAX_BASE_SPEED := by
  have hnorm := maintain_speed_mag sq v hg1 hex1
  simp only [postStage, postStage_team_cond]
  rw [if_pos ht]
  have hg_w : sq ((maintain_speed sq v).vx * (maintain_speed sq v).vx
      + (maintain_speed sq v).vy * (maintain_speed sq v).vy) > 1/1000000 := by
    rw [hnorm]
    exact hg2
  have hex_w : sq ((maintain_speed sq v).vx * (maintain_speed sq v).vx
      + (maintain_speed sq v).vy * (maintain_speed sq v).vy)
      * sq ((maintain_speed sq v).vx * (maintain_speed sq v).vx
        + (maintain_speed sq v).vy * (maintain_speed sq v).vy)
      = (maintain_speed sq v).vx * (maintain_speed sq v).vx
        + (maintain_speed sq v).vy * (maintain_speed sq v).vy := by
    rw [hnorm]
    exact hex2
  have hmw := maintain_speed_mag sq
    { maintain_speed sq v with
      base_speed := ratMin ((maintain_speed sq v).base_speed * TEAM_BOOST) MAX_BASE_SPEED }
    hg_w hex_w
  exact hmw.trans (by
    show ratMin ((maintain_speed sq v).base_speed * TEAM_BOOST) MAX_BASE_SPEED
      * ratMin ((maintain_speed sq v).base_speed * TEAM_BOOST) MAX_BASE_SPEED = _
    rw [maintain_speed_base])

lemma postImpulseI_team (sq : ℚ → ℚ) (bi bj : Ball) :
    (postImpulseI sq bi bj).team = bi.team := rfl

lemma postImpulseJ_team (sq : ℚ → ℚ) (bi bj : Ball) :
    (postImpulseJ sq bi bj).team = bj.team := rfl

lemma postImpulseI_base (sq : ℚ → ℚ) (bi bj : Ball) :
    (postImpulseI sq bi bj).base_speed = bi.base_speed := rfl

lemma postImpulseJ_base (sq : ℚ → ℚ) (bi bj : Ball) :
    (postImpulseJ sq bi bj).base_speed = bj.base_speed := rfl

/-- C4 counterexample: a roster consisting of one stationary disc with
`base_speed = 200`.  `resolve_collisions` (with no territory bounce anywhere in
sight) leaves it untouched, and its velocity magnitude is 0, not 200 — so it is
not true that after resolution every disc's velocity magnitude equals its
`base_speed`. -/
theorem claim_C4_cex :
    resolve_collisions ratSqrt (fun _ _ => (1, 0))
        [⟨50, 50, 0, 0, Team.White, 10, 200, -1⟩]
      = [⟨50, 50, 0, 0, Team.White, 10, 200, -1⟩]
    ∧ ¬ ((0 : ℚ) * 0 + 0 * 0 = 200 * 200) := by
  constructor
  · rfl
  · decide

/-- C4 (amended): in every pairwise resolution step of `resolve_collisions`
with contact, nondegenerate distance, and approaching discs (the only case in
which a velocity impulse is applied): (1, 2) each disc's `base_speed` changes
exactly by the team-boost rule — multiplied by 1.12 and capped at 520 when the
two discs share a team, unchanged otherwise — and (3–6) whenever the
`maintain_speed` guards are cleared and the square-root oracle is exact at the
needed values, each disc's resulting squared velocity magnitude equals the
square of its (possibly boosted) `base_speed`.  Discs whose velocity is never
updated (no contact, or separating) keep their velocity, so the original
unconditional claim fails — see the counterexample. -/
theorem claim_C4_amended (sq : ℚ → ℚ) (pk : ℚ × ℚ) (bi bj : Ball)
    (hc : pairDist2 bi bj ≤ (bi.radius + bj.radius) * (bi.radius + bj.radius))
    (hd : sq (pairDist2 bi bj) ≠ 0)
    (hv : pairVn sq bi bj < 0) :
    ((resolve_pair sq pk bi bj).1.base_speed =
      if bi.team = bj.team then ratMin (bi.base_speed * TEAM_BOOST) MAX_BASE_SPEED
      else bi.base_speed)
    ∧ ((resolve_pair sq pk bi bj).2.base_speed =
      if bi.team = bj.team then ratMin (bj.base_speed * TEAM_BOOST) MAX_BASE_SPEED
      else bj.base_speed)
    ∧ (bi.team ≠ bj.team →
        sq (impulseVix sq bi bj * impulseVix sq bi bj
            + impulseViy sq bi bj * impulseViy sq bi bj) > 1/1000000 →
        sq (impulseVix sq bi bj * impulseVix sq bi bj
            + impulseViy sq bi bj * impulseViy sq bi bj)
          * sq (impulseVix sq bi bj * impulseVix sq bi bj
            + impulseViy sq bi bj * impulseViy sq bi bj)
          = impulseVix sq bi bj * impulseVix sq bi bj
            + impulseViy sq bi bj * impulseViy sq bi bj →
        (resolve_pair sq pk bi bj).1.vx * (resolve_pair sq pk bi bj).1.vx
          + (resolve_pair sq pk bi bj).1.vy * (resolve_pair sq pk bi bj).1.vy
          = (resolve_pair sq pk bi bj).1.base_speed
            * (resolve_pair sq pk bi bj).1.base_speed)
    ∧ (bi.team ≠ bj.team →
        sq (impulseVjx sq bi bj * impulseVjx sq bi bj
            + impulseVjy sq bi bj * impulseVjy sq bi bj) > 1/1000000 →
        sq (impulseVjx sq bi bj * impulseVjx sq bi bj
            + impulseVjy sq bi bj * impulseVjy sq bi bj)
          * sq (impulseVjx sq bi bj * impulseVjx sq bi bj
            + impulseVjy sq bi bj * impulseVjy sq bi bj)
          = impulseVjx sq bi bj * impulseVjx sq bi bj
            + impulseVjy sq bi bj * impulseVjy sq bi bj →
        (resolve_pair sq pk bi bj).2.vx * (resolve_pair sq pk bi bj).2.vx
          + (resolve_pair sq pk bi bj).2.vy * (resolve_pair sq pk bi bj).2.vy
          = (resolve_pair sq pk bi bj).2.base_speed
            * (resolve_pair sq pk bi bj).2.base_speed)
    ∧ (bi.team = bj.team →
        sq (impulseVix sq bi bj * impulseVix sq bi bj
            + impulseViy sq bi bj * impulseViy sq bi bj) > 1/1000000 →
        sq (impulseVix sq bi bj * impulseVix sq bi bj
            + impulseViy sq bi bj * impulseViy sq bi bj)
          * sq (impulseVix sq bi bj * impulseVix sq bi bj
            + impulseViy sq bi bj * impulseViy sq bi bj)
          = impulseVix sq bi bj * impulseVix sq bi bj
            + impulseViy sq bi bj * impulseViy sq bi bj →
        sq (bi.base_speed * bi.base_speed) > 1/1000000 →
        sq (bi.base_speed * bi.base_speed) * sq (bi.base_speed * bi.base_speed)
          = bi.base_speed * bi.base_speed →
        (resolve_pair sq pk bi bj).1.vx * (resolve_pair sq pk bi bj).1.vx
          + (resolve_pair sq pk bi bj).1.vy * (resolve_pair sq pk bi bj).1.vy
          = (resolve_pair sq pk bi bj).1.base_speed
            * (resolve_pair sq pk bi bj).1.base_speed)
    ∧ (bi.team = bj.team →
        sq (impulseVjx sq bi bj * impulseVjx sq bi bj
            + impulseVjy sq bi bj * impulseVjy sq bi bj) > 1/1000000 →
        sq (impulseVjx sq bi bj * impulseVjx sq bi bj
            + impulseVjy sq bi bj * impulseVjy sq bi bj)
          * sq (impulseVjx sq bi bj * impulseVjx sq bi bj
            + impulseVjy sq bi bj * impulseVjy sq bi bj)
          = impulseVjx sq bi bj * impulseVjx sq bi bj
            + impulseVjy sq bi bj * impulseVjy sq bi bj →
        sq (bj.base_speed * bj.base_speed) > 1/1000000 →
        sq (bj.base_speed * bj.base_speed) * sq (bj.base_speed * bj.base_speed)
          = bj.base_speed * bj.base_speed →
        (resolve_pair sq pk bi bj).2.vx * (resolve_pair sq pk bi bj).2.vx
          + (resolve_pair sq pk bi bj).2.vy * (resolve_pair sq pk bi bj).2.vy
          = (resolve_pair sq pk bi bj).2.base_speed
            * (resolve_pair sq pk bi bj).2.base_speed) := by
  have hRP := resolve_pair_eq_approaching sq pk bi bj hc hd hv
  refine ⟨?_, ?_, ?_, ?_, ?_, ?_⟩
  · rw [hRP, postStage_fst_base]
    simp only [postImpulseI_team, postImpulseJ_team, postImpulseI_base]
  · rw [hRP, postStage_snd_base]
    simp only [postImpulseI_team, postImpulseJ_team, postImpulseJ_base]
  · intro ht hg hex
    rw [hRP, postStage_fst_base]
    simp only [postImpulseI_team, postImpulseJ_team, postImpulseI_base]
    rw [if_neg ht]
    exact postStage_fst_speed_diff sq (postImpulseI sq bi bj) (postImpulseJ sq bi bj)
      ht hg hex
  · intro ht hg hex
    rw [hRP, postStage_snd_base]
    simp only [postImpulseI_team, postImpulseJ_team, postImpulseJ_base]
    rw [if_neg ht]
    exact postStage_snd_speed_diff sq (postImpulseI sq bi bj) (postImpulseJ sq bi bj)
      ht hg hex
  · intro ht hg hex hgb hexb
    rw [hRP, postStage_fst_base]
    simp only [postImpulseI_team, postImpulseJ_team, postImpulseI_base]
    rw [if_pos ht]
    exact postStage_fst_speed_same sq (postImpulseI sq bi bj) (postImpulseJ sq bi bj)
      ht hg hex hgb hexb
  · intro ht hg hex hgb hexb
    rw [hRP, postStage_snd_base]
    simp only [postImpulseI_team, postImpulseJ_team, postImpulseJ_base]
    rw [if_pos ht]
    exact postStage_snd_speed_same sq (postImpulseI sq bi bj) (postImpulseJ sq bi bj)
      ht hg hex hgb hexb

/-- C4 witness: a concrete head-on contact between a White and a Black disc at
distance 15 with radii 10; the impulse leaves disc `i` at velocity `(-98, 0)`
and the re-assertion rescales it to its base speed 50. -/
theorem claim_C4_witness :
    (resolve_pair ratSqrt (1, 0) ⟨100, 100, 100, 0, Team.White, 10, 50, -1⟩
        ⟨115, 100, -100, 0, Team.Black, 10, 50, -1⟩).1.vx
      * (resolve_pair ratSqrt (1, 0) ⟨100, 100, 100, 0, Team.White, 10, 50, -1⟩
        ⟨115, 100, -100, 0, Team.Black, 10, 50, -1⟩).1.vx
      + (resolve_pair ratSqrt (1, 0) ⟨100, 100, 100, 0, Team.White, 10, 50, -1⟩
        ⟨115, 100, -100, 0, Team.Black, 10, 50, -1⟩).1.vy
      * (resolve_pair ratSqrt (1, 0) ⟨100, 100, 100, 0, Team.White, 10, 50, -1⟩
        ⟨115, 100, -100, 0, Team.Black, 10, 50, -1⟩).1.vy
      = (resolve_pair ratSqrt (1, 0) ⟨100, 100, 100, 0, Team.White, 10, 50, -1⟩
        ⟨115, 100, -100, 0, Team.Black, 10, 50, -1⟩).1.base_speed
      * (resolve_pair ratSqrt (1, 0) ⟨100, 100, 100, 0, Team.White, 10, 50, -1⟩
        ⟨115, 100, -100, 0, Team.Black, 10, 50, -1⟩).1.base_speed :=
  (claim_C4_amended ratSqrt (1, 0) ⟨100, 100, 100, 0, Team.White, 10, 50, -1⟩
    ⟨115, 100, -100, 0, Team.Black, 10, 50, -1⟩
    (by decide) (by decide) (by decide)).2.2.1 (by decide) (by decide) (by decide)

/-- In an exactly coincident contact (`pairDist2 = 0`, so the oracle distance
is 0 and the degenerate branch fires), the pre-nudge `dx`, `dy` are zero and are
never recomputed, so the contact normal is the zero vector: the positional
correction moves neither disc, no impulse can fire (`vn = 0`), and the whole
resolution is exactly the `0.001` random poke applied to disc `i`, with disc
`j` returned untouched. -/
lemma resolve_pair_eq_coincident (sq : ℚ → ℚ) (pk : ℚ × ℚ) (bi bj : Ball)
    (h0 : pairDist2 bi bj = 0) (hsq0 : sq 0 = 0) :
    resolve_pair sq pk bi bj =
      ({ bi with x := bi.x - pk.1 * (1/1000), y := bi.y - pk.2 * (1/1000) }, bj) := by
  have hdx : bj.x - bi.x = 0 := by
    unfold pairDist2 at h0
    nlinarith [mul_self_nonneg (bj.x - bi.x), mul_self_nonneg (bj.y - bi.y)]
  have hdy : bj.y - bi.y = 0 := by
    unfold pairDist2 at h0
    nlinarith [mul_self_nonneg (bj.x - bi.x), mul_self_nonneg (bj.y - bi.y)]
  have hrsum : ¬ ((0:ℚ) > (bi.radius + bj.radius) * (bi.radius + bj.radius)) :=
    not_lt.mpr (mul_self_nonneg _)
  simp only [resolve_pair, hdx, hdy, zero_mul, mul_zero, add_zero, zero_add, zero_div,
    sub_zero, hrsum, if_false, hsq0, if_pos, mul_one, ge_iff_le, le_refl, if_true]

/-- C7 counterexample: two discs with exactly coincident centers (squared
center distance 0, well within the squared sum of radii, so the pair is in the
claim's scope).  The claimed positional correction would push each disc apart
by `penetration/2 + 1e-4 > 0` along the contact normal, but the code computes
the normal from the stale pre-nudge `dx = dy = 0`: the result is exactly the
`0.001` random poke on disc `i` and disc `j` entirely unchanged — no
penetration-based separation is applied to either disc. -/
theorem claim_C7_cex :
    pairDist2 ((⟨100, 100, 0, 0, Team.White, 10, 50, -1⟩ : Ball))
        ⟨100, 100, 0, 0, Team.Black, 10, 50, -1⟩ = 0
    ∧ pairDist2 ((⟨100, 100, 0, 0, Team.White, 10, 50, -1⟩ : Ball))
        ⟨100, 100, 0, 0, Team.Black, 10, 50, -1⟩ ≤ (10 + 10) * (10 + 10)
    ∧ resolve_pair ratSqrt (1, 0) ⟨100, 100, 0, 0, Team.White, 10, 50, -1⟩
        ⟨100, 100, 0, 0, Team.Black, 10, 50, -1⟩
      = (⟨99999/1000, 100, 0, 0, Team.White, 10, 50, -1⟩,
         ⟨100, 100, 0, 0, Team.Black, 10, 50, -1⟩)
    ∧ (0:ℚ) < ((10 + 10) - ratSqrt (pairDist2
        ((⟨100, 100, 0, 0, Team.White, 10, 50, -1⟩ : Ball))
        ⟨100, 100, 0, 0, Team.Black, 10, 50, -1⟩)) / 2 + 1/10000 := by
  refine ⟨by decide, by decide, by decide, by decide⟩

/-- C7 (amended): for every pair of discs in contact (squared center distance
at most the squared sum of radii, inclusive) whose center distance is nonzero
in the oracle metric, the positional correction — each disc pushed along the
contact normal by half the penetration depth plus the `1e-4` bias — is applied
to both discs (first conjunct), even when no velocity response occurs: when the
relative velocity along the normal is nonnegative, the velocities and base
speeds are untouched (second conjunct).  When the discs are approaching
(`vn < 0`), the outcome is exactly the corrected pair with the impulse of
magnitude `-(1 + 0.98)·vn/2` applied equally and oppositely (`impulseVix/…Vjy`),
followed by the base-speed re-assertion/boost stage (third conjunct).  At
exactly coincident centers the stale `dx = dy = 0` make the normal the zero
vector, so no penetration-based separation and no impulse occur: disc `i`
receives only the `0.001` random poke and disc `j` is returned unchanged
(fourth conjunct; this is what refutes the original unrestricted claim). -/
theorem claim_C7 (sq : ℚ → ℚ) (pk : ℚ × ℚ) (bi bj : Ball)
    (hc : pairDist2 bi bj ≤ (bi.radius + bj.radius) * (bi.radius + bj.radius)) :
    (sq (pairDist2 bi bj) ≠ 0 →
      (resolve_pair sq pk bi bj).1.x = bi.x - pairNx sq bi bj * pairCorr sq bi bj
      ∧ (resolve_pair sq pk bi bj).1.y = bi.y - pairNy sq bi bj * pairCorr sq bi bj
      ∧ (resolve_pair sq pk bi bj).2.x = bj.x + pairNx sq bi bj * pairCorr sq bi bj
      ∧ (resolve_pair sq pk bi bj).2.y = bj.y + pairNy sq bi bj * pairCorr sq bi bj)
    ∧ (sq (pairDist2 bi bj) ≠ 0 → pairVn sq bi bj ≥ 0 →
        (resolve_pair sq pk bi bj).1.vx = bi.vx
        ∧ (resolve_pair sq pk bi bj).1.vy = bi.vy
        ∧ (resolve_pair sq pk bi bj).2.vx = bj.vx
        ∧ (resolve_pair sq pk bi bj).2.vy = bj.vy
        ∧ (resolve_pair sq pk bi bj).1.base_speed = bi.base_speed
        ∧ (resolve_pair sq pk bi bj).2.base_speed = bj.base_speed)
    ∧ (sq (pairDist2 bi bj) ≠ 0 → pairVn sq bi bj < 0 →
        resolve_pair sq pk bi bj =
          postStage sq (postImpulseI sq bi bj) (postImpulseJ sq bi bj))
    ∧ (pairDist2 bi bj = 0 → sq 0 = 0 →
        resolve_pair sq pk bi bj =
          ({ bi with x := bi.x - pk.1 * (1/1000), y := bi.y - pk.2 * (1/1000) }, bj)) := by
  refine ⟨?_, ?_,
    fun hd hv => resolve_pair_eq_approaching sq pk bi bj hc hd hv,
    fun h0 hsq0 => resolve_pair_eq_coincident sq pk bi bj h0 hsq0⟩
  · intro hd
    by_cases hv : pairVn sq bi bj ≥ 0
    · rw [resolve_pair_eq_separating sq pk bi bj hc hd hv]
      exact ⟨rfl, rfl, rfl, rfl⟩
    · rw [resolve_pair_eq_approaching sq pk bi bj hc hd (not_le.mp hv)]
      exact ⟨postStage_fst_x sq _ _, postStage_fst_y sq _ _,
        postStage_snd_x sq _ _, postStage_snd_y sq _ _⟩
  · intro hd hv
    rw [resolve_pair_eq_separating sq pk bi bj hc hd hv]
    exact ⟨rfl, rfl, rfl, rfl, rfl, rfl⟩

/-- C7 witness: two touching stationary discs (relative normal velocity 0,
distance 15 nonzero in the oracle) are pushed apart but keep their velocities. -/
theorem claim_C7_witness :
    (resolve_pair ratSqrt (1, 0) ⟨100, 100, 0, 0, Team.White, 10, 50, -1⟩
        ⟨115, 100, 0, 0, Team.Black, 10, 50, -1⟩).1.vx
      = (⟨100, 100, 0, 0, Team.White, 10, 50, -1⟩ : Ball).vx :=
  ((claim_C7 ratSqrt (1, 0) ⟨100, 100, 0, 0, Team.White, 10, 50, -1⟩
      ⟨115, 100, 0, 0, Team.Black, 10, 50, -1⟩
      (by decide)).2.1 (by decide) (by decide)).1

/-! ## Claim C5 -/

lemma ratFloor_eq_floor (q : ℚ) : ratFloor q = ⌊q⌋ := by
  unfold ratFloor
  rw [Int.fdiv_eq_ediv _ (by positivity : (0:ℤ) ≤ (q.den : ℤ))]
  rw [← Rat.floor_intCast_div_natCast q.num q.den]
  congr 1
  rw [Rat.num_div_den]

lemma roundHalfAway_natCast (n : ℕ) : roundHalfAway (n : ℚ) = n := by
  unfold roundHalfAway
  rw [if_pos (by positivity), ratFloor_eq_floor]
  rw [Int.floor_eq_iff]
  constructor
  · push_cast
    linarith
  · push_cast
    linarith

/-- `center_to_index` inverts the cell-center layout formulas on any grid with
positive `r` and `hex_h`, for in-range `(col, row)`. -/
lemma center_to_index_round_trip (g : Grid) (hr : 0 < g.r) (hh : 0 < g.hex_h)
    (col row : ℕ) (hcol : col < g.cols) (hrow : row < g.rows) :
    center_to_index g (g.r + (col : ℚ) * (3/2 * g.r))
        (g.hex_h / 2 + (if col % 2 = 0 then (0:ℚ) else g.hex_h / 2) + (row : ℚ) * g.hex_h)
      = some (col * g.rows + row) := by
  have e1 : (g.r + (col : ℚ) * (3/2 * g.r) - g.r) / (3/2 * g.r) = (col : ℚ) := by
    field_simp
    ring
  simp only [center_to_index, e1, roundHalfAway_natCast]
  rw [if_neg (by push_cast; omega)]
  have ecol : ((col : ℤ)).toNat = col := Int.toNat_natCast col
  simp only [ecol]
  have e2 : (g.hex_h / 2 + (if col % 2 = 0 then (0:ℚ) else g.hex_h / 2)
        + (row : ℚ) * g.hex_h - g.hex_h / 2
        - (if col % 2 = 0 then (0:ℚ) else g.hex_h / 2)) / g.hex_h = (row : ℚ) := by
    field_simp
    ring
  rw [e2, roundHalfAway_natCast]
  rw [if_neg (by push_cast; omega)]
  simp [Int.toNat_natCast]

lemma length_flatMap_const {α : Type} (f : ℕ → List α) (K m : ℕ)
    (hK : ∀ i, (f i).length = K) :
    ((List.range m).flatMap f).length = m * K := by
  induction m with
  | zero => simp
  | succ m ih =>
    rw [List.range_succ, List.flatMap_append]
    simp only [List.length_append, ih, List.flatMap_cons, List.flatMap_nil,
      List.append_nil, hK]
    ring

lemma getElem?_flatMap_range {α : Type} (f : ℕ → List α) (K m i j : ℕ)
    (hK : ∀ c, (f c).length = K) (hi : i < m) (hj : j < K) :
    ((List.range m).flatMap f)[i * K + j]? = (f i)[j]? := by
  induction m with
  | zero => omega
  | succ m ih =>
    rw [List.range_succ, List.flatMap_append]
    by_cases h : i < m
    · have hlt : i * K + j < ((List.range m).flatMap f).length := by
        rw [length_flatMap_const f K m hK]
        have h1 : i * K + j < (i + 1) * K := by
          rw [Nat.succ_mul]
          omega
        exact lt_of_lt_of_le h1 (Nat.mul_le_mul_right K (by omega))
      rw [List.getElem?_append_left hlt]
      exact ih h
    · have hi2 : i = m := by omega
      rw [hi2]
      rw [List.getElem?_append_right (by rw [length_flatMap_const f K m hK]; exact Nat.le_add_right _ _)]
      rw [length_flatMap_const f K m hK]
      simp

/-- The cell `Grid::new` pushes for column `c`, row `k` (the loop body of the
cell construction, with the lets substituted). -/
def gridCell (sq : ℚ → ℚ) (css_w r : ℚ) (c k : ℕ) : Cell :=
  { col := c, row := k,
    cx := r + (c : ℚ) * (3/2 * r),
    cy := (sq 3 * r) / 2 + (if c % 2 = 0 then (0:ℚ) else (sq 3 * r) / 2)
      + (k : ℚ) * (sq 3 * r),
    color := if r + (c : ℚ) * (3/2 * r) < css_w * (1/2)
      then HexColor.White else HexColor.Black }

/-- C5: on every grid built by `Grid.new` with `0 < r` and positive vertical
step, `center_to_index` applied to the cell-center formulas
(`x = r + col·1.5r`, `y = hex_h/2 + (col odd ? hex_h/2 : 0) + row·hex_h`) of any
in-range `(col, row)` returns `some (col * rows + row)` — and that index really
is that cell's position in the column-major cell list: the stored cell there
carries exactly these `col`, `row`, centers, and the half-split color. -/
theorem claim_C5 (sq : ℚ → ℚ) (css_w css_h r : ℚ) (col row : ℕ)
    (hr : 0 < r) (hh : 0 < sq 3 * r)
    (hcol : col < (Grid.new sq css_w css_h r).cols)
    (hrow : row < (Grid.new sq css_w css_h r).rows) :
    center_to_index (Grid.new sq css_w css_h r)
        (r + (col : ℚ) * (3/2 * r))
        ((sq 3 * r) / 2 + (if col % 2 = 0 then (0:ℚ) else (sq 3 * r) / 2)
          + (row : ℚ) * (sq 3 * r))
      = some (col * (Grid.new sq css_w css_h r).rows + row)
    ∧ (Grid.new sq css_w css_h r).cells[col * (Grid.new sq css_w css_h r).rows + row]?
      = some { col := col, row := row,
               cx := r + (col : ℚ) * (3/2 * r),
               cy := (sq 3 * r) / 2 + (if col % 2 = 0 then (0:ℚ) else (sq 3 * r) / 2)
                 + (row : ℚ) * (sq 3 * r),
               color := if r + (col : ℚ) * (3/2 * r) < css_w * (1/2)
                 then HexColor.White else HexColor.Black } := by
  constructor
  · exact center_to_index_round_trip (Grid.new sq css_w css_h r) hr hh col row hcol hrow
  · have hcells : (Grid.new sq css_w css_h r).cells
        = (List.range (Grid.new sq css_w css_h r).cols).flatMap
          (fun (c : ℕ) => (List.range (Grid.new sq css_w css_h r).rows).map
            (gridCell sq css_w r c)) := rfl
    rw [hcells]
    rw [getElem?_flatMap_range _ ((Grid.new sq css_w css_h r).rows)
      ((Grid.new sq css_w css_h r).cols) col row (fun c => by simp) hcol hrow]
    simp [hrow, gridCell]

/-- C5 witness: the 500×300 board with `r = 10` (32 columns, 29 rows per the
construction); the center of cell `(5, 7)` locates back to index `5·rows + 7`. -/
theorem claim_C5_witness :
    center_to_index (Grid.new ratSqrt 500 300 10)
        (10 + ((5 : ℕ) : ℚ) * (3/2 * 10))
        ((ratSqrt 3 * 10) / 2 + (if 5 % 2 = 0 then (0:ℚ) else (ratSqrt 3 * 10) / 2)
          + ((7 : ℕ) : ℚ) * (ratSqrt 3 * 10))
      = some (5 * (Grid.new ratSqrt 500 300 10).rows + 7) :=
  (claim_C5 ratSqrt 500 300 10 5 7 (by decide) (by decide) (by decide) (by decide)).1

/-! ## Claim C8 -/

lemma gridNew_halfsplit (sq : ℚ → ℚ) (css_w css_h r : ℚ) :
    ((Grid.new sq css_w css_h r).cells.all
      (fun c => decide (c.color =
        if c.cx < css_w * (1/2) then HexColor.White else HexColor.Black))) = true := by
  rw [List.all_eq_true]
  intro c hc
  have hcells : (Grid.new sq css_w css_h r).cells
      = (List.range (Grid.new sq css_w css_h r).cols).flatMap
        (fun (i : ℕ) => (List.range (Grid.new sq css_w css_h r).rows).map
          (gridCell sq css_w r i)) := rfl
  rw [hcells] at hc
  rcases List.mem_flatMap.mp hc with ⟨i, _, hmem⟩
  rcases List.mem_map.mp hmem with ⟨k, _, rfl⟩
  simp only [gridCell, decide_eq_true_eq]

/-- C8: `reset_grid` rebuilds the grid for the current board size (and the new
grid's colors are exactly the left/right half-split about the board midline),
sets both cumulative point totals to zero, and leaves everything else — in
particular the entire disc roster, with all positions, velocities, teams,
radii, base speeds, and last-bounce timestamps — unchanged. -/
theorem claim_C8 (sq : ℚ → ℚ) (app : AppState) :
    (reset_grid sq app).balls = app.balls
    ∧ (reset_grid sq app).points_white = 0
    ∧ (reset_grid sq app).points_black = 0
    ∧ (reset_grid sq app).grid
      = Grid.new sq app.css_w app.css_h (app_hex_r app.css_w app.css_h)
    ∧ (reset_grid sq app).css_w = app.css_w
    ∧ (reset_grid sq app).css_h = app.css_h
    ∧ (reset_grid sq app).last_ts = app.last_ts
    ∧ (reset_grid sq app).speed_mul = app.speed_mul
    ∧ ((reset_grid sq app).grid.cells.all
        (fun c => decide (c.color =
          if c.cx < app.css_w * (1/2) then HexColor.White else HexColor.Black))) = true := by
  refine ⟨rfl, rfl, rfl, rfl, rfl, rfl, rfl, rfl, ?_⟩
  exact gridNew_halfsplit sq app.css_w app.css_h _

/-! ## Claim C2 -/

lemma wallClamp_bounds (x1 vx r w : ℚ) (hw : 2 * r ≤ w) :
    r ≤ (if x1 - r ≤ 0 then (r, ratAbs vx)
         else if x1 + r ≥ w then (w - r, -(ratAbs vx)) else (x1, vx)).1
    ∧ (if x1 - r ≤ 0 then (r, ratAbs vx)
       else if x1 + r ≥ w then (w - r, -(ratAbs vx)) else (x1, vx)).1 ≤ w - r := by
  split
  · constructor
    · simp
    · simp
      linarith
  · rename_i h1
    split
    · rename_i h2
      constructor
      · simp
        linarith
      · simp
    · rename_i h2
      push_neg at h1 h2
      constructor
      · simp
        linarith
      · simp
        linarith

/-- C2 (amended): wall containment holds after Phase 1 of `tick` (integration
plus wall clamping): on a board that can contain the disc
(`2·radius ≤ width, height`), the clamped position lies in
`[radius, dimension − radius]` on both axes.  End-of-tick containment fails in
general because Phase 2's positional correction can push a disc past a wall and
nothing re-clamps it afterwards within the same tick — see the counterexample. -/
theorem claim_C2_amended (w h dt mul : ℚ) (b : Ball)
    (hw : 2 * b.radius ≤ w) (hh : 2 * b.radius ≤ h) :
    b.radius ≤ (integrate_walls w h dt mul b).x
    ∧ (integrate_walls w h dt mul b).x ≤ w - b.radius
    ∧ b.radius ≤ (integrate_walls w h dt mul b).y
    ∧ (integrate_walls w h dt mul b).y ≤ h - b.radius :=
  ⟨(wallClamp_bounds (b.x + b.vx * dt * mul) b.vx b.radius w hw).1,
   (wallClamp_bounds (b.x + b.vx * dt * mul) b.vx b.radius w hw).2,
   (wallClamp_bounds (b.y + b.vy * dt * mul) b.vy b.radius h hh).1,
   (wallClamp_bounds (b.y + b.vy * dt * mul) b.vy b.radius h hh).2⟩

/-- C2 witness: a concrete disc against the left wall of a 30×30 board stays
in `[6, 24]²` after integration and clamping. -/
theorem claim_C2_witness :
    (6:ℚ) ≤ (integrate_walls 30 30 (1/100) 1
        ⟨6, 15, 0, 200, Team.White, 6, 200, -1⟩).x
    ∧ (integrate_walls 30 30 (1/100) 1 ⟨6, 15, 0, 200, Team.White, 6, 200, -1⟩).x
      ≤ 30 - 6
    ∧ (6:ℚ) ≤ (integrate_walls 30 30 (1/100) 1 ⟨6, 15, 0, 200, Team.White, 6, 200, -1⟩).y
    ∧ (integrate_walls 30 30 (1/100) 1 ⟨6, 15, 0, 200, Team.White, 6, 200, -1⟩).y
      ≤ 30 - 6 :=
  claim_C2_amended 30 30 (1/100) 1 ⟨6, 15, 0, 200, Team.White, 6, 200, -1⟩
    (by decide) (by decide)

/-- A world state of the shape the app produces: the 30×30 board's grid, two
same-team discs of radius 6 within bounds moving at their base speed, the
second overlapping the first.  Used to refute end-of-tick wall containment. -/
def cexC2App : AppState :=
  { css_w := 30, css_h := 30, grid := Grid.new ratSqrt 30 30 3,
    balls := [ { x := 6, y := 15, vx := 0, vy := 200, team := Team.White, radius := 6,
                 base_speed := 200, last_bounce_ts := -1 },
               { x := 14, y := 15, vx := 0, vy := 200, team := Team.White, radius := 6,
                 base_speed := 200, last_bounce_ts := 5 } ],
    last_ts := 0, speed_mul := 1, points_white := 0, points_black := 0 }

/-- C2 counterexample: every disc of `cexC2App` satisfies wall containment
before the tick, yet after `tick` at `ts = 10` the first disc sits at
`x = 3.9999 < radius = 6`: the pair overlap (distance 8 < 12) triggers the
positional correction of Phase 2, which pushes the disc through the left wall,
and no later phase of the tick restores containment. -/
theorem claim_C2_cex :
    (cexC2App.balls.all (fun b =>
        decide (b.radius ≤ b.x) && decide (b.x ≤ cexC2App.css_w - b.radius)
        && decide (b.radius ≤ b.y) && decide (b.y ≤ cexC2App.css_h - b.radius))) = true
    ∧ (((tick ratSqrt (fun _ _ => (1, 0)) cexC2App 10).balls[0]?).map
        (fun b => (b.x, b.radius))) = some (39999/10000, 6)
    ∧ ((39999 : ℚ)/10000 < 6) := by
  refine ⟨by decide, by decide, by decide⟩

end HexWar
